import Mathlib

/-!
Shallow embedding of the auto-save editor subsystem of DevCodeX_Web.

The embedded code:
* `useAutoSave` (src/features/answers/hooks, the auto-save controller):
  status state machine, last-saved snapshot, debounce timer, force save,
  status reset, unmount teardown, and the catch-based error handling of
  `performSave`.
* `useDebounce` (src/core hooks): the generic value debouncer.
* The `code` renderer of `MarkdownPreview`
  (src/features/answers/components/AnswerEditor): the `language-` regex,
  the inline/block split, and the trailing-newline strip.

Time is modelled as discrete `Nat` milliseconds.  The controller is a
state (`CtrlState`) plus a step function over externally timed events
(`AutoSaveEvent`); JavaScript timers (`setTimeout`) are deadlines stored
in the state and fired, in deadline order, whenever time advances to an
event's timestamp (`advanceTo`).  The caller-supplied `onSave` promise is
represented by the `inflight` list: invoking it appends its argument and
emits `SaveOutput.callOnSave`; its settlement is the external event
`AutoSaveEvent.settle`, carrying `Except.ok` for resolution and
`Except.error` for rejection.
-/

/-- The four values of `AutoSaveStatus` in useSaveAnswer.ts. -/
inductive AutoSaveStatus
  | idle
  | saving
  | saved
  | error
deriving DecidableEq, Repr

/-- The options of `useAutoSave` that are fixed props: `debounceMs`
(default 1000) and `enabled` (default true).  The `onSuccess` / `onError`
callbacks are modelled as emitted outputs instead. -/
structure AutoSaveConfig where
  debounceMs : Nat
  enabled : Bool
deriving DecidableEq, Repr

/-- A JavaScript `Error` value, reduced to its message. -/
structure JsError where
  message : String
deriving DecidableEq, Repr

/-- A JavaScript rejection value: either an `Error` instance or any other
value (carried as an opaque description). -/
inductive RejectionValue
  | errorVal (message : String)
  | otherVal (descr : String)
deriving DecidableEq, Repr

/-- The catch clause of `performSave`:
`error instanceof Error ? error : new Error('Save failed')`. -/
def toCallbackError : RejectionValue → JsError
  | .errorVal m => ⟨m⟩
  | .otherVal _ => ⟨"Save failed"⟩

/-- Observable outputs of the controller: invocations of the
caller-supplied `onSave`, `onSuccess` and `onError` callbacks. -/
inductive SaveOutput
  | callOnSave (content : String)
  | successCb
  | errorCb (e : JsError)
deriving DecidableEq, Repr

/-- State of one `useAutoSave` controller instance.

* `now` — current time (ms);
* `status` — the `status` React state;
* `content` — the `content` prop as of the last render;
* `lastSaved` — `lastSavedContentRef.current`;
* `mounted` — `isMountedRef.current`;
* `timer` — the pending debounce `setTimeout`, as (deadline, the
  `content` captured by the effect closure), `timerRef.current`;
* `resetTimers` — deadlines of pending 2-second reset `setTimeout`s
  scheduled by `performSave` on success (these are never cleared);
* `inflight` — arguments of `onSave` calls whose promise is unsettled. -/
structure CtrlState where
  now : Nat
  status : AutoSaveStatus
  content : String
  lastSaved : String
  mounted : Bool
  timer : Option (Nat × String)
  resetTimers : List Nat
  inflight : List String
deriving DecidableEq, Repr

/-- Initial state: `useState('idle')`, `useRef(content)` seeds the
snapshot with the mount-time content, no timers, nothing in flight. -/
def initState (c0 : String) : CtrlState :=
  { now := 0, status := .idle, content := c0, lastSaved := c0,
    mounted := true, timer := none, resetTimers := [], inflight := [] }

/-- `hasUnsavedChanges: content !== lastSavedContentRef.current`. -/
def hasUnsavedChanges (s : CtrlState) : Bool :=
  s.content != s.lastSaved

/-- The synchronous prefix of `performSave` up to the `await`:
bail out if unmounted, otherwise `setStatus('saving')` and invoke
`onSave(contentToSave)` (recorded in `inflight` and as an output). -/
def performSaveStart (s : CtrlState) (contentToSave : String) :
    CtrlState × List SaveOutput :=
  if s.mounted then
    ({ s with status := .saving, inflight := s.inflight ++ [contentToSave] },
     [SaveOutput.callOnSave contentToSave])
  else
    (s, [])

/-- The continuation of `performSave` after the `await`: on resolution,
if still mounted, update the snapshot, `setStatus('saved')`, fire
`onSuccess`, and schedule the 2000 ms reset; on rejection, if still
mounted, `setStatus('error')` and fire `onError` with the normalised
error.  The final `Except` is the settlement of `performSave`'s own
promise: the `try`/`catch` means it always resolves (`Except.ok ()`),
never re-throwing the rejection. -/
def performSaveSettle (s : CtrlState) (c : String)
    (result : Except RejectionValue Unit) :
    CtrlState × List SaveOutput × Except RejectionValue Unit :=
  match result with
  | .ok _ =>
    if s.mounted then
      ({ s with lastSaved := c, status := .saved,
                resetTimers := s.resetTimers ++ [s.now + 2000] },
       [SaveOutput.successCb], Except.ok ())
    else
      (s, [], Except.ok ())
  | .error e =>
    if s.mounted then
      ({ s with status := .error },
       [SaveOutput.errorCb (toCallbackError e)], Except.ok ())
    else
      (s, [], Except.ok ())

/-- A due JavaScript timer: either the debounce timer (with its captured
content) or one of the reset timers. -/
inductive DueTimer
  | debounce (deadline : Nat) (captured : String)
  | reset (deadline : Nat)
deriving DecidableEq, Repr

/-- Earliest deadline among a list, restricted to deadlines `≤ t`. -/
def earliestReset : List Nat → Nat → Option Nat
  | [], _ => none
  | d :: rest, t =>
    let r := earliestReset rest t
    if d ≤ t then
      match r with
      | none => some d
      | some m => some (min d m)
    else r

/-- The debounce timer, if due by time `t`. -/
def debounceDue : Option (Nat × String) → Nat → Option (Nat × String)
  | some p, t => if p.1 ≤ t then some p else none
  | none, _ => none

/-- The earliest timer due by time `t`, if any.  Ties between a reset
timer and the debounce timer are broken in favour of the reset timer
(the order is unobservable in the claims proved below). -/
def earliestDue (s : CtrlState) (t : Nat) : Option DueTimer :=
  match earliestReset s.resetTimers t, debounceDue s.timer t with
  | none, none => none
  | some d, none => some (.reset d)
  | none, some (d, c) => some (.debounce d c)
  | some dr, some (db, c) =>
    if dr ≤ db then some (.reset dr) else some (.debounce db c)

/-- Fire one due timer.  A reset timer runs
`if (isMountedRef.current) setStatus('idle')`; the debounce timer runs
`void performSave(content)` with its captured content. -/
def fireOne (s : CtrlState) : DueTimer → CtrlState × List SaveOutput
  | .reset d =>
    let s1 := { s with now := d, resetTimers := s.resetTimers.erase d }
    if s1.mounted then ({ s1 with status := .idle }, []) else (s1, [])
  | .debounce d c =>
    performSaveStart { s with now := d, timer := none } c

/-- Advance time to `t`, firing every due timer in deadline order.
`fuel` bounds the number of firings; firing a debounce timer schedules
no new timer and firing a reset timer removes one, so
`resetTimers.length + 1` fuel always suffices. -/
def advanceFuel : Nat → Nat → CtrlState → CtrlState × List SaveOutput
  | 0, t, s => ({ s with now := t }, [])
  | fuel + 1, t, s =>
    match earliestDue s t with
    | none => ({ s with now := t }, [])
    | some dt =>
      let p := fireOne s dt
      let q := advanceFuel fuel t p.1
      (q.1, p.2 ++ q.2)

/-- Advance the controller's clock to (at least) `t`. -/
def advanceTo (t : Nat) (s : CtrlState) : CtrlState × List SaveOutput :=
  advanceFuel (s.resetTimers.length + 1) (max s.now t) s

/-- A re-render with new `content`.  React skips the render if the value
is unchanged; otherwise the debounce effect's cleanup clears the pending
timer, and the effect re-arms it for `debounceMs` later if and only if
auto-save is enabled and the content differs from the snapshot. -/
def changeAction (cfg : AutoSaveConfig) (s : CtrlState) (c : String) :
    CtrlState :=
  if c = s.content then s
  else
    let s1 := { s with content := c, timer := none }
    if cfg.enabled = true ∧ c ≠ s.lastSaved then
      { s1 with timer := some (s1.now + cfg.debounceMs, c) }
    else s1

/-- `forceSave`: clear the pending debounce timer, then
`await performSave(content)` with the current content. -/
def forceAction (s : CtrlState) : CtrlState × List SaveOutput :=
  performSaveStart { s with timer := none } s.content

/-- Settlement of the `i`-th in-flight `onSave` promise.  The third
component is the settlement of the enclosing `performSave` promise. -/
def settleAction (s : CtrlState) (i : Nat)
    (result : Except RejectionValue Unit) :
    CtrlState × List SaveOutput × Except RejectionValue Unit :=
  match s.inflight[i]? with
  | none => (s, [], Except.ok ())
  | some c =>
    performSaveSettle { s with inflight := s.inflight.eraseIdx i } c result

/-- Externally timed events driving one controller instance. -/
inductive AutoSaveEvent
  | change (t : Nat) (c : String)
  | settle (t : Nat) (i : Nat) (result : Except RejectionValue Unit)
  | force (t : Nat)
  | resetStatusEv (t : Nat)
  | unmount (t : Nat)

/-- Process one event: advance the clock to the event's time (firing due
timers), then apply the event's action.  The render-driven actions
(`change`, `force`, `resetStatusEv`) occur only while mounted. -/
def stepEvent (cfg : AutoSaveConfig) (s : CtrlState) :
    AutoSaveEvent → CtrlState × List SaveOutput
  | .change t c =>
    let p := advanceTo t s
    (if p.1.mounted then changeAction cfg p.1 c else p.1, p.2)
  | .settle t i r =>
    let p := advanceTo t s
    let q := settleAction p.1 i r
    (q.1, p.2 ++ q.2.1)
  | .force t =>
    let p := advanceTo t s
    if p.1.mounted then
      let q := forceAction p.1
      (q.1, p.2 ++ q.2)
    else (p.1, p.2)
  | .resetStatusEv t =>
    let p := advanceTo t s
    (if p.1.mounted then { p.1 with status := .idle } else p.1, p.2)
  | .unmount t =>
    let p := advanceTo t s
    ({ p.1 with mounted := false, timer := none }, p.2)

/-- Run a list of events. -/
def run (cfg : AutoSaveConfig) :
    CtrlState → List AutoSaveEvent → CtrlState × List SaveOutput
  | s, [] => (s, [])
  | s, e :: es =>
    let p := stepEvent cfg s e
    let q := run cfg p.1 es
    (q.1, p.2 ++ q.2)

/-- Run a list of events, then let the clock advance to `tEnd`. -/
def runTo (cfg : AutoSaveConfig) (s : CtrlState)
    (evs : List AutoSaveEvent) (tEnd : Nat) : CtrlState × List SaveOutput :=
  let p := run cfg s evs
  let q := advanceTo tEnd p.1
  (q.1, p.2 ++ q.2)

/-- Whether an event is not a `forceSave` call. -/
def noForceEvent : AutoSaveEvent → Bool
  | .force _ => false
  | _ => true

/-- Turn a list of (time, content) pairs into content-change events. -/
def mkChangeEvents (l : List (Nat × String)) : List AutoSaveEvent :=
  l.map fun p => AutoSaveEvent.change p.1 p.2

/-- A rapid sequence of content changes after a change of content
`cPrev` at time `tPrev`: times are non-decreasing, each change arrives
strictly within `debounceMs` of the previous one, and each change
actually changes the content. -/
def rapidSeq (cfg : AutoSaveConfig) : Nat → String → List (Nat × String) → Prop
  | _, _, [] => True
  | tPrev, cPrev, p :: rest =>
    tPrev ≤ p.1 ∧ p.1 < tPrev + cfg.debounceMs ∧ p.2 ≠ cPrev ∧
    rapidSeq cfg p.1 p.2 rest

/-- Time of the last change in a list, with a default. -/
def lastTime : List (Nat × String) → Nat → Nat
  | [], t => t
  | p :: rest, _ => lastTime rest p.1

/-- Content of the last change in a list, with a default. -/
def lastContent : List (Nat × String) → String → String
  | [], c => c
  | p :: rest, _ => lastContent rest p.2

/-- The controller state in the middle of a rapid change sequence with
snapshot `c0`, after a change to `c` at time `t`: a timer is pending for
`t + debounceMs` exactly when `c` differs from the snapshot. -/
def midState (cfg : AutoSaveConfig) (c0 : String) (t : Nat) (c : String) :
    CtrlState :=
  { now := t, status := .idle, content := c, lastSaved := c0, mounted := true,
    timer := if c = c0 then none else some (t + cfg.debounceMs, c),
    resetTimers := [], inflight := [] }

/-! ## The `useDebounce` primitive (core hooks) -/

/-- State of one `useDebounce` instance: the input `value`, the
`debouncedValue` React state, the pending `setTimeout` (deadline and the
`value` captured by the effect closure), and the mounted flag. -/
structure DebounceState (α : Type) where
  now : Nat
  value : α
  debounced : α
  timer : Option (Nat × α)
  mounted : Bool
deriving DecidableEq, Repr

/-- Mount-time state: `useState(value)` seeds the debounced value with
the input, and the effect's first run arms a timer for `delay` later
(its firing writes back the same value). -/
def debounceInit (delay : Nat) (v : α) : DebounceState α :=
  { now := 0, value := v, debounced := v,
    timer := some (delay, v), mounted := true }

/-- Advance the clock to (at least) `t`: the single pending timer fires
if its deadline has passed, running `setDebouncedValue(value)` with the
captured value. -/
def debounceAdvance (s : DebounceState α) (t : Nat) : DebounceState α :=
  let u := max s.now t
  match s.timer with
  | some dv =>
    if dv.1 ≤ u then { s with now := u, debounced := dv.2, timer := none }
    else { s with now := u }
  | none => { s with now := u }

/-- Events driving one `useDebounce` instance: a re-render with a new
input value, or unmount. -/
inductive DebounceEvent (α : Type)
  | setValue (t : Nat) (v : α)
  | teardown (t : Nat)

/-- Process one event.  On a changed input value the previous effect's
cleanup (`clearTimeout`) cancels the pending timer and the effect re-arms
it for `delay` later; an unchanged value does not re-render.  On
teardown the cleanup cancels the pending timer. -/
def debounceStep [DecidableEq α] (delay : Nat) (s : DebounceState α) :
    DebounceEvent α → DebounceState α
  | .setValue t v =>
    let s1 := debounceAdvance s t
    if v = s1.value then s1
    else { s1 with value := v, timer := some (s1.now + delay, v) }
  | .teardown t =>
    let s1 := debounceAdvance s t
    { s1 with mounted := false, timer := none }

/-- Run a list of debounce events. -/
def debounceRun [DecidableEq α] (delay : Nat) :
    DebounceState α → List (DebounceEvent α) → DebounceState α
  | s, [] => s
  | s, e :: es => debounceRun delay (debounceStep delay s e) es

/-! ## The `code` renderer of `MarkdownPreview` -/

/-- A `\w` word character of the JavaScript regex engine:
`[A-Za-z0-9_]`. -/
def isWordChar (ch : Char) : Bool :=
  ch.isAlpha || ch.isDigit || ch = '_'

/-- Match a literal pattern at the head of the input, returning the
remainder on success. -/
def matchLit : List Char → List Char → Option (List Char)
  | [], rest => some rest
  | _ :: _, [] => none
  | p :: ps, c :: cs => if c = p then matchLit ps cs else none

/-- The regex search `/language-(\w+)/.exec(className)`: at each
position, try to match the literal `language-` followed by at least one
word character; the capture is the maximal run of word characters. -/
def findLangTag : List Char → Option (List Char)
  | [] => none
  | c :: cs =>
    match matchLit ("language-".data) (c :: cs) with
    | some rest =>
      let tag := rest.takeWhile isWordChar
      if tag.isEmpty then findLangTag cs else some tag
    | none => findLangTag cs

/-- `/language-(\w+)/.exec(className || '')`, on strings. -/
def execLanguageRegex (className : Option String) : Option String :=
  (findLangTag (className.getD "").data).map fun l => String.mk l

/-- `String(children).replace(/\n$/, '')`: strip one trailing newline. -/
def stripTrailingNewline (s : String) : String :=
  if s.data.getLast? = some '\n' then String.mk s.data.dropLast else s

/-- What the custom `code` component renders: an inline `<code>` element
with the children verbatim, or a `SyntaxHighlighter` block with a
language tag. -/
inductive RenderedCode
  | inlineCode (text : String)
  | codeBlock (language : String) (text : String)
deriving DecidableEq, Repr

/-- The custom `code` component of `MarkdownPreview`: no `language-`
match means inline code rendered verbatim; a match means a highlighted
block of `String(children).replace(/\n$/, '')`. -/
def codeComponent (className : Option String) (children : String) :
    RenderedCode :=
  match execLanguageRegex className with
  | none => .inlineCode children
  | some lang => .codeBlock lang (stripTrailingNewline children)

/-- The text content a reader extracts from the rendered element
(`SyntaxHighlighter` and `<code>` both display their children string as
text). -/
def displayedText : RenderedCode → String
  | .inlineCode t => t
  | .codeBlock _ t => t

/-- Modelled from the spec: the markdown pipeline (react-markdown with
remark-gfm, an external collaborator not in this repository) delivers a
fenced code block with info string `lang` and body `body` to the custom
`code` component as `className = "language-" ++ lang` and
`children = body ++ "\n"`. -/
def fencedBlockProps (lang body : String) : Option String × String :=
  (some ("language-" ++ lang), body ++ "\n")

/-! ## Helper lemmas about time advance -/

theorem advanceFuel_now (fuel t : Nat) (s : CtrlState) :
    (advanceFuel fuel t s).1.now = t := by
  induction fuel generalizing s with
  | zero => rfl
  | succ n ih =>
    unfold advanceFuel
    cases earliestDue s t with
    | none => rfl
    | some dt => simpa using ih (fireOne s dt).1

theorem fireOne_mounted (s : CtrlState) (dt : DueTimer) :
    (fireOne s dt).1.mounted = s.mounted := by
  cases dt with
  | reset d => simp only [fireOne]; split <;> rfl
  | debounce d c => simp only [fireOne, performSaveStart]; split <;> rfl

theorem fireOne_content (s : CtrlState) (dt : DueTimer) :
    (fireOne s dt).1.content = s.content := by
  cases dt with
  | reset d => simp only [fireOne]; split <;> rfl
  | debounce d c => simp only [fireOne, performSaveStart]; split <;> rfl

theorem fireOne_lastSaved (s : CtrlState) (dt : DueTimer) :
    (fireOne s dt).1.lastSaved = s.lastSaved := by
  cases dt with
  | reset d => simp only [fireOne]; split <;> rfl
  | debounce d c => simp only [fireOne, performSaveStart]; split <;> rfl

theorem fireOne_inflight (s : CtrlState) (dt : DueTimer) :
    ∃ l, (fireOne s dt).1.inflight = s.inflight ++ l := by
  cases dt with
  | reset d =>
    refine ⟨[], ?_⟩
    simp only [fireOne]; split <;> simp
  | debounce d c =>
    simp only [fireOne, performSaveStart]
    split
    · exact ⟨[c], rfl⟩
    · exact ⟨[], by simp⟩

theorem advanceFuel_mounted (fuel t : Nat) (s : CtrlState) :
    (advanceFuel fuel t s).1.mounted = s.mounted := by
  induction fuel generalizing s with
  | zero => rfl
  | succ n ih =>
    unfold advanceFuel
    cases earliestDue s t with
    | none => rfl
    | some dt =>
      simpa [fireOne_mounted] using ih (fireOne s dt).1

theorem advanceFuel_content (fuel t : Nat) (s : CtrlState) :
    (advanceFuel fuel t s).1.content = s.content := by
  induction fuel generalizing s with
  | zero => rfl
  | succ n ih =>
    unfold advanceFuel
    cases earliestDue s t with
    | none => rfl
    | some dt =>
      simpa [fireOne_content] using ih (fireOne s dt).1

theorem advanceFuel_lastSaved (fuel t : Nat) (s : CtrlState) :
    (advanceFuel fuel t s).1.lastSaved = s.lastSaved := by
  induction fuel generalizing s with
  | zero => rfl
  | succ n ih =>
    unfold advanceFuel
    cases earliestDue s t with
    | none => rfl
    | some dt =>
      simpa [fireOne_lastSaved] using ih (fireOne s dt).1

theorem advanceFuel_inflight (fuel t : Nat) (s : CtrlState) :
    ∃ l, (advanceFuel fuel t s).1.inflight = s.inflight ++ l := by
  induction fuel generalizing s with
  | zero => exact ⟨[], by simp [advanceFuel]⟩
  | succ n ih =>
    unfold advanceFuel
    cases hdue : earliestDue s t with
    | none => exact ⟨[], by simp⟩
    | some dt =>
      obtain ⟨l1, h1⟩ := fireOne_inflight s dt
      obtain ⟨l2, h2⟩ := ih (fireOne s dt).1
      exact ⟨l1 ++ l2, by simp [h2, h1]⟩

theorem earliestReset_eq_none (l : List Nat) (t : Nat)
    (h : ∀ d ∈ l, ¬ d ≤ t) : earliestReset l t = none := by
  induction l with
  | nil => rfl
  | cons d rest ih =>
    unfold earliestReset
    rw [if_neg (h d (by simp))]
    exact ih fun x hx => h x (by simp [hx])

theorem debounceDue_eq_none (tm : Option (Nat × String)) (t : Nat)
    (hb : ∀ p, tm = some p → ¬ p.1 ≤ t) : debounceDue tm t = none := by
  cases tm with
  | none => rfl
  | some p => simp only [debounceDue]; rw [if_neg (hb p rfl)]

theorem earliestDue_eq_none (s : CtrlState) (t : Nat)
    (hr : ∀ d ∈ s.resetTimers, ¬ d ≤ t)
    (hb : ∀ p, s.timer = some p → ¬ p.1 ≤ t) :
    earliestDue s t = none := by
  unfold earliestDue
  rw [earliestReset_eq_none _ _ hr, debounceDue_eq_none _ _ hb]

theorem advanceFuel_noDue (fuel t : Nat) (s : CtrlState)
    (h : earliestDue s t = none) :
    advanceFuel fuel t s = ({ s with now := t }, []) := by
  cases fuel with
  | zero => rfl
  | succ n => unfold advanceFuel; rw [h]

theorem advanceTo_noDue (t : Nat) (s : CtrlState)
    (hr : ∀ d ∈ s.resetTimers, ¬ d ≤ max s.now t)
    (hb : ∀ p, s.timer = some p → ¬ p.1 ≤ max s.now t) :
    advanceTo t s = ({ s with now := max s.now t }, []) :=
  advanceFuel_noDue _ _ _ (earliestDue_eq_none _ _ hr hb)

theorem advanceTo_fireDebounce (t d : Nat) (c : String) (s : CtrlState)
    (ht : s.timer = some (d, c)) (hres : s.resetTimers = [])
    (hm : s.mounted = true) (hd : d ≤ max s.now t) :
    advanceTo t s =
      ({ s with now := max s.now t, timer := none, status := .saving,
                inflight := s.inflight ++ [c] },
       [SaveOutput.callOnSave c]) := by
  obtain ⟨n0, st0, co0, ls0, m0, tm0, rt0, fl0⟩ := s
  simp only at ht hres hm hd ⊢
  subst ht hres hm
  have h2 : earliestDue ⟨n0, st0, co0, ls0, true, some (d, c), [], fl0⟩
      (max n0 t) = some (.debounce d c) := by
    simp only [earliestDue, earliestReset, debounceDue]
    rw [if_pos hd]
  show advanceFuel (List.length [] + 1) (max n0 t) _ = _
  unfold advanceFuel
  rw [h2]
  simp [advanceFuel, fireOne, performSaveStart]

theorem advanceTo_fireSingleReset (t dr : Nat) (s : CtrlState)
    (hres : s.resetTimers = [dr]) (ht : s.timer = none)
    (hm : s.mounted = true) (hd : dr ≤ max s.now t) :
    advanceTo t s =
      ({ s with now := max s.now t, resetTimers := [], status := .idle },
       []) := by
  obtain ⟨n0, st0, co0, ls0, m0, tm0, rt0, fl0⟩ := s
  simp only at ht hres hm hd ⊢
  subst ht hres hm
  have h2 : earliestDue ⟨n0, st0, co0, ls0, true, none, [dr], fl0⟩
      (max n0 t) = some (.reset dr) := by
    simp only [earliestDue, earliestReset, debounceDue]
    rw [if_pos hd]
  have h3 : fireOne ⟨n0, st0, co0, ls0, true, none, [dr], fl0⟩ (.reset dr) =
      (⟨dr, .idle, co0, ls0, true, none, [], fl0⟩, []) := by
    simp [fireOne, List.erase_cons_head]
  have h4 : earliestDue ⟨dr, .idle, co0, ls0, true, none, [], fl0⟩
      (max n0 t) = none := by
    apply earliestDue_eq_none
    · intro x hx; simp at hx
    · intro p hp; simp at hp
  show advanceFuel (List.length [dr] + 1) (max n0 t) _ = _
  unfold advanceFuel
  rw [h2]
  simp only [h3]
  simp [advanceFuel, h4]

theorem earliestDue_no_debounce (s : CtrlState) (t : Nat)
    (hb : ∀ p, s.timer = some p → ¬ p.1 ≤ t) :
    earliestDue s t = none ∨ ∃ d, earliestDue s t = some (.reset d) := by
  unfold earliestDue
  rw [debounceDue_eq_none _ _ hb]
  cases earliestReset s.resetTimers t with
  | none => exact Or.inl rfl
  | some d => exact Or.inr ⟨d, rfl⟩

theorem fireOne_reset_timer (s : CtrlState) (d : Nat) :
    (fireOne s (.reset d)).1.timer = s.timer := by
  simp only [fireOne]; split <;> rfl

theorem fireOne_reset_inflight (s : CtrlState) (d : Nat) :
    (fireOne s (.reset d)).1.inflight = s.inflight := by
  simp only [fireOne]; split <;> rfl

theorem fireOne_reset_snd (s : CtrlState) (d : Nat) :
    (fireOne s (.reset d)).2 = [] := by
  simp only [fireOne]; split <;> rfl

/-- While the debounce timer is not yet due, advancing time fires only
reset timers: it invokes no save, and leaves the debounce timer, the
content, the snapshot, the mounted flag and the in-flight list
untouched. -/
theorem advanceFuel_noSave (fuel t : Nat) (s : CtrlState)
    (hb : ∀ p, s.timer = some p → ¬ p.1 ≤ t) :
    (advanceFuel fuel t s).1.timer = s.timer ∧
    (advanceFuel fuel t s).1.content = s.content ∧
    (advanceFuel fuel t s).1.mounted = s.mounted ∧
    (advanceFuel fuel t s).1.inflight = s.inflight ∧
    (advanceFuel fuel t s).1.lastSaved = s.lastSaved ∧
    (advanceFuel fuel t s).2 = [] := by
  induction fuel generalizing s with
  | zero => exact ⟨rfl, rfl, rfl, rfl, rfl, rfl⟩
  | succ n ih =>
    unfold advanceFuel
    rcases earliestDue_no_debounce s t hb with hnone | ⟨d, hdue⟩
    · rw [hnone]; exact ⟨rfl, rfl, rfl, rfl, rfl, rfl⟩
    · rw [hdue]
      have ht' : ∀ p, (fireOne s (.reset d)).1.timer = some p → ¬ p.1 ≤ t := by
        rw [fireOne_reset_timer]; exact hb
      obtain ⟨h1, h2, h3, h4, h5, h6⟩ := ih (fireOne s (.reset d)).1 ht'
      refine ⟨?_, ?_, ?_, ?_, ?_, ?_⟩ <;>
        simp [h1, h2, h3, h4, h5, h6, fireOne_reset_timer,
              fireOne_reset_inflight, fireOne_content, fireOne_mounted,
              fireOne_lastSaved, fireOne_reset_snd]

/-- After unmount, with the debounce timer cleared, advancing time can
only fire leftover reset timers, whose callbacks see
`isMountedRef.current === false` and do nothing: no state visible to the
claims changes and no output is emitted. -/
theorem advanceFuel_unmounted_status (fuel t : Nat) (s : CtrlState)
    (hm : s.mounted = false) (htm : s.timer = none) :
    (advanceFuel fuel t s).1.status = s.status := by
  induction fuel generalizing s with
  | zero => rfl
  | succ n ih =>
    unfold advanceFuel
    rcases earliestDue_no_debounce s t
        (fun p hp => by rw [htm] at hp; cases hp) with hnone | ⟨d, hdue⟩
    · rw [hnone]
    · rw [hdue]
      have h1 : (fireOne s (.reset d)).1.status = s.status := by
        simp [fireOne, hm]
      have h2 : (fireOne s (.reset d)).1.mounted = false := by
        rw [fireOne_mounted]; exact hm
      have h3 : (fireOne s (.reset d)).1.timer = none := by
        rw [fireOne_reset_timer]; exact htm
      simpa [h1] using ih (fireOne s (.reset d)).1 h2 h3

/-- With auto-save disabled, any non-`forceSave` event preserves the
quiet invariant: no timer, nothing in flight, no reset timers, and the
step never enters `saving` and never calls `onSave`. -/
theorem stepEvent_preserves_disabled (cfg : AutoSaveConfig)
    (hen : cfg.enabled = false) (s : CtrlState) (e : AutoSaveEvent)
    (h1 : s.timer = none) (h2 : s.inflight = []) (h3 : s.resetTimers = [])
    (hne : noForceEvent e = true) :
    (stepEvent cfg s e).1.timer = none ∧
    (stepEvent cfg s e).1.inflight = [] ∧
    (stepEvent cfg s e).1.resetTimers = [] ∧
    ((stepEvent cfg s e).1.status = s.status ∨
      (stepEvent cfg s e).1.status = .idle) ∧
    (stepEvent cfg s e).2 = [] := by
  have hbnd : ∀ (u : Nat) p, s.timer = some p → ¬ p.1 ≤ u := by
    intro u p hp; rw [h1] at hp; cases hp
  cases e with
  | change t c =>
    have hadv := advanceTo_noDue t s (by rw [h3]; intro d hd; cases hd)
      (hbnd _)
    simp only [stepEvent, hadv]
    split
    · unfold changeAction
      split
      · simp [h1, h2, h3]
      · rw [if_neg (by simp [hen])]
        simp [h2, h3]
    · simp [h1, h2, h3]
  | settle t i r =>
    have hadv := advanceTo_noDue t s (by rw [h3]; intro d hd; cases hd)
      (hbnd _)
    simp only [stepEvent, hadv]
    unfold settleAction
    have hnil : ({ s with now := max s.now t } : CtrlState).inflight[i]? =
        none := by
      show s.inflight[i]? = none
      rw [h2]; simp
    rw [hnil]
    simp [h1, h2, h3]
  | force t => simp [noForceEvent] at hne
  | resetStatusEv t =>
    have hadv := advanceTo_noDue t s (by rw [h3]; intro d hd; cases hd)
      (hbnd _)
    simp only [stepEvent, hadv]
    split
    · simp [h1, h2, h3]
    · simp [h1, h2, h3]
  | unmount t =>
    have hadv := advanceTo_noDue t s (by rw [h3]; intro d hd; cases hd)
      (hbnd _)
    simp only [stepEvent, hadv]
    simp [h2, h3]

/-- With auto-save disabled and no `forceSave` in the trace, a run from
a quiet state never reaches `saving` and never calls `onSave`. -/
theorem run_disabled (cfg : AutoSaveConfig) (hen : cfg.enabled = false) :
    ∀ (evs : List AutoSaveEvent) (s : CtrlState),
      s.timer = none → s.inflight = [] → s.resetTimers = [] →
      evs.all noForceEvent = true →
      ((run cfg s evs).1.status = s.status ∨
        (run cfg s evs).1.status = .idle) ∧
      ∀ c, SaveOutput.callOnSave c ∉ (run cfg s evs).2 := by
  intro evs
  induction evs with
  | nil =>
    intro s _ _ _ _
    exact ⟨Or.inl rfl, by intro c hc; simp [run] at hc⟩
  | cons e es ih =>
    intro s h1 h2 h3 hall
    rw [List.all_cons, Bool.and_eq_true] at hall
    obtain ⟨he, hes⟩ := hall
    obtain ⟨g1, g2, g3, g4, g5⟩ :=
      stepEvent_preserves_disabled cfg hen s e h1 h2 h3 he
    obtain ⟨r1, r2⟩ := ih (stepEvent cfg s e).1 g1 g2 g3 hes
    constructor
    · show (run cfg (stepEvent cfg s e).1 es).1.status = s.status ∨
        (run cfg (stepEvent cfg s e).1 es).1.status = .idle
      rcases r1 with r1 | r1
      · rw [r1]
        exact g4
      · exact Or.inr r1
    · intro c hc
      simp only [run, List.mem_append] at hc
      rcases hc with hc | hc
      · rw [g5] at hc; cases hc
      · exact r2 c hc

/-- C1 counterexample: `forceSave` transitions the status to `saving`
even though auto-save is disabled, the content equals the last-saved
snapshot, and no debounce quiet period has elapsed (the call is at
t = 0). -/
theorem saving_transition_conditions_cex :
    (run { debounceMs := 1000, enabled := false } (initState "a")
        [AutoSaveEvent.force 0]).1.status = AutoSaveStatus.saving ∧
    ({ debounceMs := 1000, enabled := false } : AutoSaveConfig).enabled
      = false ∧
    (initState "a").content = (initState "a").lastSaved := by
  decide

/-- C1 (amended): a debounce-triggered transition to `saving` occurs
only when auto-save is enabled and the changed content differs from the
snapshot — with auto-save disabled and no `forceSave`, the controller
never enters `saving` and never calls `onSave`; a content change arms
the debounce timer exactly when auto-save is enabled and the new content
differs from the snapshot, for exactly `debounceMs` after the change;
and the armed timer firing at its deadline is what enters `saving`.
`forceSave`, by contrast, enters `saving` immediately regardless of
these conditions (see the counterexample). -/
theorem saving_transition_conditions :
    (∀ (cfg : AutoSaveConfig) (c0 : String) (evs : List AutoSaveEvent),
       cfg.enabled = false → evs.all noForceEvent = true →
       (run cfg (initState c0) evs).1.status ≠ .saving ∧
       ∀ c, SaveOutput.callOnSave c ∉ (run cfg (initState c0) evs).2) ∧
    (∀ (cfg : AutoSaveConfig) (s : CtrlState) (t : Nat) (c : String),
       s.mounted = true → c ≠ s.content →
       (∀ p, s.timer = some p → ¬ p.1 ≤ max s.now t) →
       (stepEvent cfg s (.change t c)).1.timer =
         if cfg.enabled = true ∧ c ≠ s.lastSaved then
           some (max s.now t + cfg.debounceMs, c)
         else none) ∧
    (∀ (s : CtrlState) (t d : Nat) (c : String),
       s.timer = some (d, c) → s.resetTimers = [] → s.mounted = true →
       d ≤ max s.now t →
       (advanceTo t s).1.status = .saving ∧
       (advanceTo t s).2 = [SaveOutput.callOnSave c]) := by
  refine ⟨?_, ?_, ?_⟩
  · intro cfg c0 evs hen hall
    obtain ⟨r1, r2⟩ := run_disabled cfg hen evs (initState c0) rfl rfl rfl hall
    refine ⟨?_, r2⟩
    rcases r1 with r1 | r1 <;> rw [r1] <;> intro hcon <;> cases hcon
  · intro cfg s t c hm hc hb
    obtain ⟨a1, a2, a3, a4, a5, a6⟩ :=
      advanceFuel_noSave (s.resetTimers.length + 1) (max s.now t) s hb
    have hnow := advanceFuel_now (s.resetTimers.length + 1) (max s.now t) s
    show (if (advanceTo t s).1.mounted then
            changeAction cfg (advanceTo t s).1 c
          else (advanceTo t s).1).timer = _
    rw [show (advanceTo t s).1.mounted = true from a3.trans hm, if_pos rfl]
    unfold changeAction
    rw [if_neg (by rw [show (advanceTo t s).1.content = s.content from a2]
                   exact hc)]
    rw [show (advanceTo t s).1.lastSaved = s.lastSaved from a5]
    split
    · show some ((advanceTo t s).1.now + cfg.debounceMs, c) = _
      rw [show (advanceTo t s).1.now = max s.now t from hnow]
    · rfl
  · intro s t d c ht hres hm hd
    rw [advanceTo_fireDebounce t d c s ht hres hm hd]
    exact ⟨rfl, rfl⟩

/-- Witness for the amended C1 at concrete inputs. -/
theorem saving_transition_conditions_witness :
    ((run { debounceMs := 7, enabled := false } (initState "x")
        [AutoSaveEvent.change 1 "y"]).1.status ≠ .saving) ∧
    ((stepEvent { debounceMs := 7, enabled := true } (initState "x")
        (.change 1 "y")).1.timer = some (8, "y")) := by
  constructor
  · exact (saving_transition_conditions.1 { debounceMs := 7, enabled := false }
      "x" [AutoSaveEvent.change 1 "y"] (by decide) (by decide)).1
  · have h := saving_transition_conditions.2.1
      { debounceMs := 7, enabled := true } (initState "x") 1 "y"
      (by decide) (by decide)
      (by intro p hp; simp [initState] at hp)
    simpa using h

/-- `performSave` wraps the `await` in `try`/`catch`, so its own promise
always resolves, for either outcome of `onSave`. -/
theorem performSaveSettle_resolves (s : CtrlState) (c : String)
    (r : Except RejectionValue Unit) :
    (performSaveSettle s c r).2.2 = Except.ok () := by
  unfold performSaveSettle
  split <;> split <;> rfl

/-- On an unmounted controller, the continuation of `performSave` after
the `await` does nothing at all. -/
theorem performSaveSettle_unmounted (s : CtrlState) (c : String)
    (r : Except RejectionValue Unit) (hm : s.mounted = false) :
    performSaveSettle s c r = (s, [], Except.ok ()) := by
  cases r <;> simp [performSaveSettle, hm]

/-- Settling any in-flight save resolves the enclosing `performSave`
promise: rejections are never re-thrown. -/
theorem settleAction_resolves (s : CtrlState) (i : Nat)
    (r : Except RejectionValue Unit) :
    (settleAction s i r).2.2 = Except.ok () := by
  unfold settleAction
  cases h0 : s.inflight[i]? with
  | none => rfl
  | some c0 => exact performSaveSettle_resolves _ _ _

/-- C2 counterexample: a save resolves at t = 100 (status `saved`,
reset scheduled for t = 2100); a newer transition to `saving` happens at
t = 200 (`forceSave`); yet at t = 2500 the stale reset has fired and
overwritten the newer status with `idle` while that newer save is still
in flight — the code has no supersession guard. -/
theorem saved_reset_supersession_cex :
    (runTo { debounceMs := 1000, enabled := true } (initState "a")
        [AutoSaveEvent.force 0, AutoSaveEvent.settle 100 0 (Except.ok ()),
         AutoSaveEvent.force 200] 2099).1.status = AutoSaveStatus.saving ∧
    (runTo { debounceMs := 1000, enabled := true } (initState "a")
        [AutoSaveEvent.force 0, AutoSaveEvent.settle 100 0 (Except.ok ()),
         AutoSaveEvent.force 200] 2500).1.status = AutoSaveStatus.idle ∧
    (runTo { debounceMs := 1000, enabled := true } (initState "a")
        [AutoSaveEvent.force 0, AutoSaveEvent.settle 100 0 (Except.ok ()),
         AutoSaveEvent.force 200] 2500).1.inflight = ["a"] := by
  decide

/-- C2 (amended): when a save resolves on a mounted controller the
status becomes `saved` and a reset fires 2000 ms later setting the
status to `idle` — unconditionally: the reset callback checks only that
the controller is still mounted, so it also overwrites any newer status
transition that happened in between (see the counterexample). -/
theorem saved_auto_reset :
    (∀ (cfg : AutoSaveConfig) (s : CtrlState) (t i : Nat) (c : String),
       s.mounted = true → s.inflight[i]? = some c → s.now ≤ t →
       s.timer = none → s.resetTimers = [] →
       (stepEvent cfg s (.settle t i (Except.ok ()))).1.status = .saved ∧
       (stepEvent cfg s (.settle t i (Except.ok ()))).1.resetTimers
         = [t + 2000] ∧
       (∀ u, t + 2000 ≤ u →
         (advanceTo u
           (stepEvent cfg s (.settle t i (Except.ok ()))).1).1.status
             = .idle)) ∧
    (∀ (s : CtrlState) (dr u : Nat),
       s.mounted = true → s.timer = none → s.resetTimers = [dr] →
       dr ≤ max s.now u →
       (advanceTo u s).1.status = .idle) := by
  constructor
  · intro cfg s t i c hm hi hnow ht hres
    obtain ⟨n0, st0, co0, ls0, m0, tm0, rt0, fl0⟩ := s
    simp only at hm hi hnow ht hres
    subst hm ht hres
    have hstep : stepEvent cfg ⟨n0, st0, co0, ls0, true, none, [], fl0⟩
        (.settle t i (Except.ok ())) =
        (⟨t, .saved, co0, c, true, none, [t + 2000], fl0.eraseIdx i⟩,
         [SaveOutput.successCb]) := by
      simp [stepEvent, advanceTo, advanceFuel, earliestDue, earliestReset,
            debounceDue, settleAction, performSaveSettle, hi,
            Nat.max_eq_right hnow]
    rw [hstep]
    refine ⟨rfl, rfl, ?_⟩
    intro u hu
    rw [advanceTo_fireSingleReset u (t + 2000)
      ⟨t, .saved, co0, c, true, none, [t + 2000], fl0.eraseIdx i⟩
      rfl rfl rfl (le_trans hu (le_max_right _ _))]
  · intro s dr u hm ht hres hd
    rw [advanceTo_fireSingleReset u dr s hres ht hm hd]

/-- Witness for the amended C2 at concrete inputs. -/
theorem saved_auto_reset_witness :
    (stepEvent { debounceMs := 1000, enabled := true }
        ⟨5, .saving, "b", "a", true, none, [], ["b"]⟩
        (.settle 10 0 (Except.ok ()))).1.status = .saved ∧
    (advanceTo 2010
        (stepEvent { debounceMs := 1000, enabled := true }
          ⟨5, .saving, "b", "a", true, none, [], ["b"]⟩
          (.settle 10 0 (Except.ok ()))).1).1.status = .idle := by
  have h := saved_auto_reset.1 { debounceMs := 1000, enabled := true }
    ⟨5, .saving, "b", "a", true, none, [], ["b"]⟩ 10 0 "b"
    rfl (by decide) (by decide) rfl rfl
  exact ⟨h.1, h.2.2 2010 (by decide)⟩

/-- C3: when the `onSave` promise for content `c` resolves on a mounted
controller, the snapshot becomes `c`, the status becomes `saved`, the
success callback fires, and `hasUnsavedChanges` is false whenever the
current content is that exact `c`. -/
theorem save_success_updates (cfg : AutoSaveConfig) (s : CtrlState)
    (t i : Nat) (c : String)
    (hm : s.mounted = true) (hi : s.inflight[i]? = some c) :
    (stepEvent cfg s (.settle t i (Except.ok ()))).1.lastSaved = c ∧
    (stepEvent cfg s (.settle t i (Except.ok ()))).1.status = .saved ∧
    SaveOutput.successCb ∈ (stepEvent cfg s (.settle t i (Except.ok ()))).2 ∧
    ((stepEvent cfg s (.settle t i (Except.ok ()))).1.content = c →
      hasUnsavedChanges (stepEvent cfg s (.settle t i (Except.ok ()))).1
        = false) := by
  obtain ⟨l, hl⟩ :=
    advanceFuel_inflight (s.resetTimers.length + 1) (max s.now t) s
  have hmnt :=
    advanceFuel_mounted (s.resetTimers.length + 1) (max s.now t) s
  have hi1 : (advanceTo t s).1.inflight[i]? = some c := by
    obtain ⟨hlt, -⟩ := List.getElem?_eq_some.mp hi
    show (advanceFuel (s.resetTimers.length + 1) (max s.now t) s).1.inflight[i]?
      = some c
    rw [hl, List.getElem?_append_left hlt]
    exact hi
  have hm1 : ((advanceTo t s).1 : CtrlState).mounted = true := hmnt.trans hm
  have hq : settleAction (advanceTo t s).1 i (Except.ok ()) =
      ({ (advanceTo t s).1 with
          inflight := (advanceTo t s).1.inflight.eraseIdx i,
          lastSaved := c, status := .saved,
          resetTimers := (advanceTo t s).1.resetTimers
            ++ [(advanceTo t s).1.now + 2000] },
       [SaveOutput.successCb], Except.ok ()) := by
    unfold settleAction
    rw [show ((advanceTo t s).1.inflight[i]? : Option String) = some c from hi1]
    simp only [performSaveSettle]
    rw [if_pos hm1]
  refine ⟨?_, ?_, ?_, ?_⟩
  · show (settleAction (advanceTo t s).1 i (Except.ok ())).1.lastSaved = c
    rw [hq]
  · show (settleAction (advanceTo t s).1 i (Except.ok ())).1.status = .saved
    rw [hq]
  · show SaveOutput.successCb ∈ (advanceTo t s).2
      ++ (settleAction (advanceTo t s).1 i (Except.ok ())).2.1
    rw [hq]
    simp
  · intro hco
    show ((stepEvent cfg s (.settle t i (Except.ok ()))).1.content
      != (stepEvent cfg s (.settle t i (Except.ok ()))).1.lastSaved) = false
    rw [hco]
    rw [show (stepEvent cfg s (.settle t i (Except.ok ()))).1.lastSaved = c from
      by show (settleAction (advanceTo t s).1 i (Except.ok ())).1.lastSaved = c
         rw [hq]]
    simp

/-- Witness for C3 at concrete inputs. -/
theorem save_success_updates_witness :
    (stepEvent { debounceMs := 1000, enabled := true }
        ⟨0, .saving, "b", "a", true, none, [], ["b"]⟩
        (.settle 3 0 (Except.ok ()))).1.lastSaved = "b" ∧
    hasUnsavedChanges
      (stepEvent { debounceMs := 1000, enabled := true }
        ⟨0, .saving, "b", "a", true, none, [], ["b"]⟩
        (.settle 3 0 (Except.ok ()))).1 = false := by
  have h := save_success_updates { debounceMs := 1000, enabled := true }
    ⟨0, .saving, "b", "a", true, none, [], ["b"]⟩ 3 0 "b" rfl (by decide)
  exact ⟨h.1, h.2.2.2 (by decide)⟩

/-- C4: when the `onSave` promise for content `c` rejects on a mounted
controller, the status becomes `error`, the snapshot and content are
unchanged (so `hasUnsavedChanges` is unchanged, in particular still true
for that content), the error callback fires with the normalised error,
and the rejection is swallowed: `performSave`'s own promise always
resolves, so nothing is re-thrown to the controller's caller. -/
theorem save_failure_keeps_snapshot (cfg : AutoSaveConfig) (s : CtrlState)
    (t i : Nat) (c : String) (v : RejectionValue)
    (hm : s.mounted = true) (hi : s.inflight[i]? = some c) :
    (stepEvent cfg s (.settle t i (Except.error v))).1.status = .error ∧
    (stepEvent cfg s (.settle t i (Except.error v))).1.lastSaved
      = s.lastSaved ∧
    (stepEvent cfg s (.settle t i (Except.error v))).1.content = s.content ∧
    SaveOutput.errorCb (toCallbackError v)
      ∈ (stepEvent cfg s (.settle t i (Except.error v))).2 ∧
    hasUnsavedChanges (stepEvent cfg s (.settle t i (Except.error v))).1
      = hasUnsavedChanges s ∧
    (∀ (s0 : CtrlState) (i0 : Nat) (r0 : Except RejectionValue Unit),
      (settleAction s0 i0 r0).2.2 = Except.ok ()) := by
  obtain ⟨l, hl⟩ :=
    advanceFuel_inflight (s.resetTimers.length + 1) (max s.now t) s
  have hmnt :=
    advanceFuel_mounted (s.resetTimers.length + 1) (max s.now t) s
  have hcon :=
    advanceFuel_content (s.resetTimers.length + 1) (max s.now t) s
  have hlst :=
    advanceFuel_lastSaved (s.resetTimers.length + 1) (max s.now t) s
  have hi1 : (advanceTo t s).1.inflight[i]? = some c := by
    obtain ⟨hlt, -⟩ := List.getElem?_eq_some.mp hi
    show (advanceFuel (s.resetTimers.length + 1) (max s.now t) s).1.inflight[i]?
      = some c
    rw [hl, List.getElem?_append_left hlt]
    exact hi
  have hm1 : ((advanceTo t s).1 : CtrlState).mounted = true := hmnt.trans hm
  have hq : settleAction (advanceTo t s).1 i (Except.error v) =
      ({ (advanceTo t s).1 with
          inflight := (advanceTo t s).1.inflight.eraseIdx i,
          status := .error },
       [SaveOutput.errorCb (toCallbackError v)], Except.ok ()) := by
    unfold settleAction
    rw [show ((advanceTo t s).1.inflight[i]? : Option String) = some c from hi1]
    simp only [performSaveSettle]
    rw [if_pos hm1]
  have hok : ∀ (s0 : CtrlState) (i0 : Nat) (r0 : Except RejectionValue Unit),
      (settleAction s0 i0 r0).2.2 = Except.ok () :=
    fun s0 i0 r0 => settleAction_resolves s0 i0 r0
  have hcontent :
      (stepEvent cfg s (.settle t i (Except.error v))).1.content
        = s.content := by
    show (settleAction (advanceTo t s).1 i (Except.error v)).1.content
      = s.content
    rw [hq]
    exact hcon.trans rfl
  have hlastSaved :
      (stepEvent cfg s (.settle t i (Except.error v))).1.lastSaved
        = s.lastSaved := by
    show (settleAction (advanceTo t s).1 i (Except.error v)).1.lastSaved
      = s.lastSaved
    rw [hq]
    exact hlst.trans rfl
  refine ⟨?_, hlastSaved, hcontent, ?_, ?_, hok⟩
  · show (settleAction (advanceTo t s).1 i (Except.error v)).1.status = .error
    rw [hq]
  · show SaveOutput.errorCb (toCallbackError v) ∈ (advanceTo t s).2
      ++ (settleAction (advanceTo t s).1 i (Except.error v)).2.1
    rw [hq]
    simp
  · show ((stepEvent cfg s (.settle t i (Except.error v))).1.content
      != (stepEvent cfg s (.settle t i (Except.error v))).1.lastSaved)
      = (s.content != s.lastSaved)
    rw [hcontent, hlastSaved]

/-- Witness for C4 at concrete inputs. -/
theorem save_failure_keeps_snapshot_witness :
    (stepEvent { debounceMs := 1000, enabled := true }
        ⟨0, .saving, "b", "a", true, none, [], ["b"]⟩
        (.settle 3 0 (Except.error (RejectionValue.errorVal "boom")))).1.status
      = .error ∧
    hasUnsavedChanges
      (stepEvent { debounceMs := 1000, enabled := true }
        ⟨0, .saving, "b", "a", true, none, [], ["b"]⟩
        (.settle 3 0 (Except.error (RejectionValue.errorVal "boom")))).1
      = true := by
  have h := save_failure_keeps_snapshot { debounceMs := 1000, enabled := true }
    ⟨0, .saving, "b", "a", true, none, [], ["b"]⟩ 3 0 "b"
    (RejectionValue.errorVal "boom") rfl (by decide)
  refine ⟨h.1, ?_⟩
  rw [h.2.2.2.2.1]
  decide

/-- C6: `forceSave` on a mounted controller clears the pending debounce
timer and invokes `onSave` immediately — at the very time of the call,
with the current content — entering `saving`; and since `performSave`
catches rejections, the promise `forceSave` awaits settles successfully
whether the save attempt succeeded or failed. -/
theorem forceSave_immediate (cfg : AutoSaveConfig) (s : CtrlState) (t : Nat)
    (hm : s.mounted = true) (hnow : s.now ≤ t)
    (hb : ∀ p, s.timer = some p → ¬ p.1 ≤ t) :
    (stepEvent cfg s (.force t)).1.timer = none ∧
    (stepEvent cfg s (.force t)).1.status = .saving ∧
    (stepEvent cfg s (.force t)).1.now = t ∧
    (stepEvent cfg s (.force t)).2 = [SaveOutput.callOnSave s.content] ∧
    (stepEvent cfg s (.force t)).1.inflight = s.inflight ++ [s.content] ∧
    (∀ (s0 : CtrlState) (c0 : String) (r0 : Except RejectionValue Unit),
      (performSaveSettle s0 c0 r0).2.2 = Except.ok ()) := by
  have hb' : ∀ p, s.timer = some p → ¬ p.1 ≤ max s.now t := by
    rw [Nat.max_eq_right hnow]; exact hb
  obtain ⟨a1, a2, a3, a4, a5, a6⟩ :=
    advanceFuel_noSave (s.resetTimers.length + 1) (max s.now t) s hb'
  have hnow1 :=
    advanceFuel_now (s.resetTimers.length + 1) (max s.now t) s
  have hm1 : ((advanceTo t s).1 : CtrlState).mounted = true := a3.trans hm
  have hq : forceAction (advanceTo t s).1 =
      ({ (advanceTo t s).1 with
          timer := none, status := .saving,
          inflight := (advanceTo t s).1.inflight
            ++ [(advanceTo t s).1.content] },
       [SaveOutput.callOnSave (advanceTo t s).1.content]) := by
    unfold forceAction performSaveStart
    rw [if_pos (show ({ (advanceTo t s).1 with timer := none }
      : CtrlState).mounted = true from hm1)]
  have hstep : stepEvent cfg s (.force t) =
      ((forceAction (advanceTo t s).1).1,
       (advanceTo t s).2 ++ (forceAction (advanceTo t s).1).2) := by
    show (if (advanceTo t s).1.mounted then _ else _) = _
    rw [hm1]
    simp
  have hok : ∀ (s0 : CtrlState) (c0 : String)
      (r0 : Except RejectionValue Unit),
      (performSaveSettle s0 c0 r0).2.2 = Except.ok () :=
    fun s0 c0 r0 => performSaveSettle_resolves s0 c0 r0
  rw [hstep, hq]
  refine ⟨rfl, rfl, ?_, ?_, ?_, hok⟩
  · show (advanceFuel (s.resetTimers.length + 1) (max s.now t) s).1.now = t
    rw [hnow1]
    exact Nat.max_eq_right hnow
  · show (advanceFuel (s.resetTimers.length + 1) (max s.now t) s).2
      ++ [SaveOutput.callOnSave
            (advanceFuel (s.resetTimers.length + 1) (max s.now t) s).1.content]
      = [SaveOutput.callOnSave s.content]
    rw [a6, a2]
    simp
  · show (advanceFuel (s.resetTimers.length + 1) (max s.now t) s).1.inflight
      ++ [(advanceFuel (s.resetTimers.length + 1) (max s.now t) s).1.content]
      = s.inflight ++ [s.content]
    rw [a4, a2]

/-- Witness for C6 at concrete inputs. -/
theorem forceSave_immediate_witness :
    (stepEvent { debounceMs := 1000, enabled := true }
        ⟨2, .idle, "b", "a", true, some (1002, "b"), [], []⟩
        (.force 2)).1.timer = none ∧
    (stepEvent { debounceMs := 1000, enabled := true }
        ⟨2, .idle, "b", "a", true, some (1002, "b"), [], []⟩
        (.force 2)).1.now = 2 ∧
    (stepEvent { debounceMs := 1000, enabled := true }
        ⟨2, .idle, "b", "a", true, some (1002, "b"), [], []⟩
        (.force 2)).2 = [SaveOutput.callOnSave "b"] := by
  have h := forceSave_immediate { debounceMs := 1000, enabled := true }
    ⟨2, .idle, "b", "a", true, some (1002, "b"), [], []⟩ 2
    rfl (by decide) (by intro p hp; simp at hp; subst hp; decide)
  exact ⟨h.1, h.2.2.1, h.2.2.2.1⟩

/-- C7: unmounting cancels the pending debounce timer without invoking
any save; afterwards, advancing time (leftover reset timers), a save
promise settling, or a stray `performSave` all leave the status and the
snapshot untouched and emit no callback. -/
theorem unmount_teardown (cfg : AutoSaveConfig) (s : CtrlState) (t : Nat)
    (hb : ∀ p, s.timer = some p → ¬ p.1 ≤ max s.now t) :
    (stepEvent cfg s (.unmount t)).1.timer = none ∧
    (stepEvent cfg s (.unmount t)).1.mounted = false ∧
    (stepEvent cfg s (.unmount t)).2 = [] ∧
    (∀ (s0 : CtrlState) (u : Nat), s0.mounted = false → s0.timer = none →
      (advanceTo u s0).1.status = s0.status ∧
      (advanceTo u s0).1.lastSaved = s0.lastSaved ∧
      (advanceTo u s0).2 = []) ∧
    (∀ (s0 : CtrlState) (i : Nat) (r : Except RejectionValue Unit),
      s0.mounted = false →
      (settleAction s0 i r).1.status = s0.status ∧
      (settleAction s0 i r).1.lastSaved = s0.lastSaved ∧
      (settleAction s0 i r).2.1 = []) ∧
    (∀ (s0 : CtrlState) (c : String), s0.mounted = false →
      performSaveStart s0 c = (s0, [])) := by
  obtain ⟨a1, a2, a3, a4, a5, a6⟩ :=
    advanceFuel_noSave (s.resetTimers.length + 1) (max s.now t) s hb
  refine ⟨rfl, rfl, ?_, ?_, ?_, ?_⟩
  · exact a6
  · intro s0 u hm0 ht0
    have hb0 : ∀ p, s0.timer = some p → ¬ p.1 ≤ max s0.now u := by
      intro p hp; rw [ht0] at hp; cases hp
    obtain ⟨b1, b2, b3, b4, b5, b6⟩ :=
      advanceFuel_noSave (s0.resetTimers.length + 1) (max s0.now u) s0 hb0
    exact ⟨advanceFuel_unmounted_status _ _ s0 hm0 ht0, b5, b6⟩
  · intro s0 i r hm0
    unfold settleAction
    cases h0 : s0.inflight[i]? with
    | none => exact ⟨rfl, rfl, rfl⟩
    | some c0 =>
      show (performSaveSettle { s0 with inflight := s0.inflight.eraseIdx i }
          c0 r).1.status = s0.status ∧
        (performSaveSettle { s0 with inflight := s0.inflight.eraseIdx i }
          c0 r).1.lastSaved = s0.lastSaved ∧
        (performSaveSettle { s0 with inflight := s0.inflight.eraseIdx i }
          c0 r).2.1 = []
      rw [performSaveSettle_unmounted
        { s0 with inflight := s0.inflight.eraseIdx i } c0 r hm0]
      exact ⟨rfl, rfl, rfl⟩
  · intro s0 c hm0
    unfold performSaveStart
    rw [if_neg (by rw [hm0]; simp)]

/-- Witness for C7 at concrete inputs. -/
theorem unmount_teardown_witness :
    (stepEvent { debounceMs := 1000, enabled := true }
        ⟨5, .idle, "b", "a", true, some (1005, "b"), [], []⟩
        (.unmount 6)).1.timer = none ∧
    (stepEvent { debounceMs := 1000, enabled := true }
        ⟨5, .idle, "b", "a", true, some (1005, "b"), [], []⟩
        (.unmount 6)).2 = [] := by
  have h := unmount_teardown { debounceMs := 1000, enabled := true }
    ⟨5, .idle, "b", "a", true, some (1005, "b"), [], []⟩ 6
    (by intro p hp; simp at hp; subst hp; decide)
  exact ⟨h.1, h.2.2.1⟩

/-- C10: the error callback receives the rejection value itself exactly
when it is an `Error` instance; any other rejection value is replaced by
`new Error('Save failed')`, so the original value is not forwarded. -/
theorem error_callback_normalisation :
    (∀ m, toCallbackError (RejectionValue.errorVal m) = ⟨m⟩) ∧
    (∀ r, toCallbackError (RejectionValue.otherVal r) = ⟨"Save failed"⟩) ∧
    (∀ (s : CtrlState) (c : String) (v : RejectionValue), s.mounted = true →
      (performSaveSettle s c (Except.error v)).2.1 =
        [SaveOutput.errorCb (toCallbackError v)]) := by
  refine ⟨fun m => rfl, fun r => rfl, ?_⟩
  intro s c v hm
  simp [performSaveSettle, hm]

/-- Witness for C10 at concrete inputs. -/
theorem error_callback_normalisation_witness :
    toCallbackError (RejectionValue.otherVal "42") = ⟨"Save failed"⟩ ∧
    (performSaveSettle ⟨0, .saving, "b", "a", true, none, [], ["b"]⟩ "b"
        (Except.error (RejectionValue.otherVal "42"))).2.1 =
      [SaveOutput.errorCb ⟨"Save failed"⟩] := by
  refine ⟨error_callback_normalisation.2.1 "42", ?_⟩
  exact error_callback_normalisation.2.2
    ⟨0, .saving, "b", "a", true, none, [], ["b"]⟩ "b"
    (RejectionValue.otherVal "42") rfl

/-- Running a rapid change sequence keeps the controller in the
mid-sequence shape: each change clears the previous timer before it can
fire and re-arms (or disarms) it according to the new content, and no
save is invoked along the way. -/
theorem run_rapidSeq (cfg : AutoSaveConfig) (hen : cfg.enabled = true)
    (c0 : String) :
    ∀ (l : List (Nat × String)) (t : Nat) (c : String),
      rapidSeq cfg t c l →
      run cfg (midState cfg c0 t c) (mkChangeEvents l) =
        (midState cfg c0 (lastTime l t) (lastContent l c), []) := by
  intro l
  induction l with
  | nil => intro t c _; rfl
  | cons p rest ih =>
    obtain ⟨t1, c1⟩ := p
    rintro t c ⟨h1, h2, h3, h4⟩
    have hmax : max t t1 = t1 := Nat.max_eq_right h1
    have hb : ∀ pp, (midState cfg c0 t c).timer = some pp →
        ¬ pp.1 ≤ max (midState cfg c0 t c).now t1 := by
      intro pp hpp
      show ¬ pp.1 ≤ max t t1
      rw [hmax]
      by_cases hc : c = c0
      · rw [show (midState cfg c0 t c).timer = none from by
          simp [midState, hc]] at hpp
        cases hpp
      · rw [show (midState cfg c0 t c).timer
            = some (t + cfg.debounceMs, c) from by
          simp [midState, hc]] at hpp
        injection hpp with hpp'
        subst hpp'
        show ¬ t + cfg.debounceMs ≤ t1
        omega
    have hres : ∀ dd ∈ (midState cfg c0 t c).resetTimers,
        ¬ dd ≤ max (midState cfg c0 t c).now t1 := by
      intro dd hdd
      simp [midState] at hdd
    have hadv := advanceTo_noDue t1 (midState cfg c0 t c) hres hb
    have hstep : stepEvent cfg (midState cfg c0 t c) (.change t1 c1) =
        (midState cfg c0 t1 c1, []) := by
      simp only [stepEvent, hadv]
      by_cases hcc : c1 = c0
      · simp [changeAction, midState, h3, hcc, hen, hmax]
        exact fun h => h.symm
      · simp [changeAction, midState, h3, hcc, hen, hmax]
    have hrest := ih t1 c1 h4
    show run cfg (midState cfg c0 t c)
      (.change t1 c1 :: mkChangeEvents rest) = _
    simp only [run, hstep, hrest]
    simp [lastTime, lastContent]

/-- C5: a rapid sequence of content changes — each arriving within
`debounceMs` of the previous one — produces, once the debounce delay
elapses after the last change, exactly one `onSave` invocation, carrying
the final content of the sequence. -/
theorem debounce_single_save (cfg : AutoSaveConfig) (c0 c1 : String)
    (t1 : Nat) (rest : List (Nat × String))
    (hen : cfg.enabled = true)
    (h0 : c1 ≠ c0)
    (hr : rapidSeq cfg t1 c1 rest)
    (hlast : lastContent rest c1 ≠ c0) :
    (runTo cfg (initState c0) (mkChangeEvents ((t1, c1) :: rest))
        (lastTime rest t1 + cfg.debounceMs)).2
      = [SaveOutput.callOnSave (lastContent rest c1)] ∧
    (runTo cfg (initState c0) (mkChangeEvents ((t1, c1) :: rest))
        (lastTime rest t1 + cfg.debounceMs)).1.status = .saving ∧
    (runTo cfg (initState c0) (mkChangeEvents ((t1, c1) :: rest))
        (lastTime rest t1 + cfg.debounceMs)).1.inflight
      = [lastContent rest c1] := by
  have hadv0 := advanceTo_noDue t1 (initState c0)
    (by intro dd hdd; simp [initState] at hdd)
    (by intro pp hpp; simp [initState] at hpp)
  have hstep0 : stepEvent cfg (initState c0) (.change t1 c1) =
      (midState cfg c0 t1 c1, []) := by
    simp only [stepEvent, hadv0]
    simp [changeAction, initState, midState, h0, hen]
  have hrun : run cfg (initState c0) (mkChangeEvents ((t1, c1) :: rest)) =
      (midState cfg c0 (lastTime rest t1) (lastContent rest c1), []) := by
    show run cfg (initState c0) (.change t1 c1 :: mkChangeEvents rest) = _
    simp only [run, hstep0, run_rapidSeq cfg hen c0 rest t1 c1 hr]
    simp
  have htm : (midState cfg c0 (lastTime rest t1) (lastContent rest c1)).timer
      = some (lastTime rest t1 + cfg.debounceMs, lastContent rest c1) := by
    simp [midState, hlast]
  have hfire := advanceTo_fireDebounce (lastTime rest t1 + cfg.debounceMs)
    (lastTime rest t1 + cfg.debounceMs) (lastContent rest c1)
    (midState cfg c0 (lastTime rest t1) (lastContent rest c1))
    htm (by simp [midState]) (by simp [midState]) (le_max_right _ _)
  unfold runTo
  simp only [hrun, hfire]
  refine ⟨?_, ?_, ?_⟩ <;> simp [midState]

/-- Witness for C5 at concrete inputs: typing "a", "ab", "abc" within
the 1000 ms window triggers exactly one save, carrying "abc". -/
theorem debounce_single_save_witness :
    (runTo { debounceMs := 1000, enabled := true } (initState "")
        (mkChangeEvents [(0, "a"), (400, "ab"), (800, "abc")]) 1800).2
      = [SaveOutput.callOnSave "abc"] := by
  have h := debounce_single_save { debounceMs := 1000, enabled := true }
    "" "a" 0 [(400, "ab"), (800, "abc")] rfl (by decide)
    ⟨by decide, by decide, by decide, by decide, by decide, by decide, trivial⟩
    (by decide)
  exact h.1

/-! ## Lemmas for the `useDebounce` primitive -/

theorem debounceAdvance_now (s : DebounceState α) (t : Nat) :
    (debounceAdvance s t).now = max s.now t := by
  obtain ⟨n, va, db, tm, m⟩ := s
  cases tm with
  | none => rfl
  | some dv =>
    simp only [debounceAdvance]
    split <;> rfl

theorem debounceAdvance_value (s : DebounceState α) (t : Nat) :
    (debounceAdvance s t).value = s.value := by
  obtain ⟨n, va, db, tm, m⟩ := s
  cases tm with
  | none => rfl
  | some dv =>
    simp only [debounceAdvance]
    split <;> rfl

/-- C8: the debounce primitive's contract.  A changed input value
re-arms the single pending timer for exactly `delay` after the change
(restarting the wait).  While the timer is not yet due, the derived
value is unchanged; once it is due, the derived value becomes the
captured value — which equals the input, unchanged since arming.  On
teardown the pending timer is cancelled and, with no timer, advancing
time never updates the derived value. -/
theorem useDebounce_contract (α : Type) [DecidableEq α] :
    (∀ (delay : Nat) (s : DebounceState α) (t : Nat) (v : α),
       v ≠ s.value →
       (debounceStep delay s (.setValue t v)).timer
         = some (max s.now t + delay, v) ∧
       (debounceStep delay s (.setValue t v)).value = v) ∧
    (∀ (s : DebounceState α) (d : Nat) (v : α) (u : Nat),
       s.timer = some (d, v) → d ≤ max s.now u →
       (debounceAdvance s u).debounced = v ∧
       (debounceAdvance s u).value = s.value) ∧
    (∀ (s : DebounceState α) (d : Nat) (v : α) (u : Nat),
       s.timer = some (d, v) → ¬ d ≤ max s.now u →
       (debounceAdvance s u).debounced = s.debounced ∧
       (debounceAdvance s u).timer = some (d, v)) ∧
    (∀ (delay : Nat) (s : DebounceState α) (t : Nat),
       (debounceStep delay s (.teardown t)).timer = none ∧
       (debounceStep delay s (.teardown t)).mounted = false) ∧
    (∀ (s : DebounceState α) (u : Nat), s.timer = none →
       (debounceAdvance s u).debounced = s.debounced ∧
       (debounceAdvance s u).timer = none) := by
  refine ⟨?_, ?_, ?_, ?_, ?_⟩
  · intro delay s t v hv
    have hval := debounceAdvance_value s t
    have hnow := debounceAdvance_now s t
    simp only [debounceStep]
    rw [if_neg (by rw [hval]; exact hv)]
    exact ⟨by rw [hnow], rfl⟩
  · intro s d v u h hd
    obtain ⟨n, va, db, tm, m⟩ := s
    simp only at h hd
    subst h
    simp [debounceAdvance, hd]
  · intro s d v u h hd
    obtain ⟨n, va, db, tm, m⟩ := s
    simp only at h hd
    subst h
    simp [debounceAdvance, hd]
  · intro delay s t
    exact ⟨rfl, rfl⟩
  · intro s u h
    obtain ⟨n, va, db, tm, m⟩ := s
    simp only at h
    subst h
    simp [debounceAdvance]

/-- Witness for C8 at concrete inputs. -/
theorem useDebounce_contract_witness :
    (debounceStep 300 (debounceInit 300 "a") (.setValue 50 "b")).timer
      = some (350, "b") ∧
    (debounceAdvance ⟨50, "b", "a", some (350, "b"), true⟩ 350).debounced
      = "b" := by
  constructor
  · have h := ((useDebounce_contract String).1 300 (debounceInit 300 "a")
      50 "b" (by decide)).1
    simpa using h
  · exact ((useDebounce_contract String).2.1
      ⟨50, "b", "a", some (350, "b"), true⟩ 350 "b" 350 rfl (by decide)).1

/-! ## Lemmas for the `MarkdownPreview` code renderer -/

theorem matchLit_append (p rest : List Char) :
    matchLit p (p ++ rest) = some rest := by
  induction p with
  | nil => rfl
  | cons a ps ih => simp [matchLit, ih]

theorem takeWhile_of_all (l : List Char)
    (h : ∀ ch ∈ l, isWordChar ch = true) :
    l.takeWhile isWordChar = l := by
  induction l with
  | nil => rfl
  | cons a rest ih =>
    rw [List.takeWhile_cons, h a (by simp)]
    simp [ih fun ch hch => h ch (by simp [hch])]

theorem findLangTag_head (l : List Char) (hne : l ≠ [])
    (hall : ∀ ch ∈ l, isWordChar ch = true) :
    findLangTag ("language-".data ++ l) = some l := by
  show findLangTag ('l' :: ("anguage-".data ++ l)) = some l
  unfold findLangTag
  rw [show matchLit ("language-".data) ('l' :: ("anguage-".data ++ l))
      = some l from matchLit_append ("language-".data) l]
  show (if (List.takeWhile isWordChar l).isEmpty = true then
      findLangTag ("anguage-".data ++ l)
    else some (List.takeWhile isWordChar l)) = some l
  rw [takeWhile_of_all l hall]
  simp [List.isEmpty_iff, hne]

/-- C9: rendering a fenced code block with any word-character language
tag (recognised by the highlighter or not) and re-extracting the
displayed text yields the original code body verbatim; and for every
`className`/`children` input whatsoever the renderer displays either the
children verbatim or the children with one trailing newline stripped —
it never throws and never drops content. -/
theorem markdown_code_roundtrip (lang body : String)
    (hne : lang.data ≠ [])
    (hall : ∀ ch ∈ lang.data, isWordChar ch = true) :
    displayedText (codeComponent (fencedBlockProps lang body).1
      (fencedBlockProps lang body).2) = body ∧
    (∀ (cls : Option String) (ch : String),
      displayedText (codeComponent cls ch) = ch ∨
      displayedText (codeComponent cls ch) = stripTrailingNewline ch) := by
  constructor
  · have hexec : execLanguageRegex (some ("language-" ++ lang))
        = some lang := by
      unfold execLanguageRegex
      show (findLangTag ("language-".data ++ lang.data)).map _ = some lang
      rw [findLangTag_head lang.data hne hall]
      rfl
    show displayedText (codeComponent (some ("language-" ++ lang))
      (body ++ "\n")) = body
    unfold codeComponent
    rw [hexec]
    show stripTrailingNewline (body ++ "\n") = body
    unfold stripTrailingNewline
    rw [show (body ++ "\n").data = body.data ++ ['\n'] from rfl]
    rw [if_pos (List.getLast?_concat body.data)]
    rw [List.dropLast_concat]
  · intro cls ch
    unfold codeComponent
    cases h : execLanguageRegex cls with
    | none => exact Or.inl rfl
    | some lg => exact Or.inr rfl

/-- Witness for C9 at concrete inputs: an unrecognised language tag
still renders its code text verbatim. -/
theorem markdown_code_roundtrip_witness :
    displayedText (codeComponent (fencedBlockProps "zig" "let x = 1;").1
      (fencedBlockProps "zig" "let x = 1;").2) = "let x = 1;" := by
  exact (markdown_code_roundtrip "zig" "let x = 1;" (by decide)
    (by decide)).1

